import Mathlib

/-! canon-ssdp: the discovery-event dispatch engine.

A shallow embedding of `src/canon-ssdp.c`.

* C strings are `String`s; the singly linked list `cameras` is a `List camera`, and a
  `struct camera *` is the position of the camera in that list.
* Calls into GLib, libc and the kernel whose result the program branches on
  (`g_shell_parse_argv`, `g_uri_split_network`, `open`, `g_spawn_async_with_fds`, ...) are
  fields of an environment `Env`; the theorems hold for every environment.
* What the program does to the outside world is recorded as a list of `Effect`s.
* Dereferencing a null pointer has no result: the functions that can do so return `Option`,
  and `none` is the fault.
* Memory is unbounded: `malloc`, `g_strdup`, `g_strdup_printf` and `g_strconcat` succeed.
-/

namespace CanonSsdp

/-! ## Data model -/

/-- The record `struct camera` (lines 14-20). The `next` pointer is the list structure. -/
structure camera where
  busy : Bool
  usn : String
  path : String
  cmd : String
deriving DecidableEq, Repr

deriving instance DecidableEq for Except

/-- A process id as returned by the spawn call (`GPid`). -/
abbrev GPid := Int

/-- The flags passed to `open(2)` by the program. -/
inductive OpenFlag
  | O_RDWR
  | O_CREAT
  | O_TRUNC
  | O_APPEND
deriving DecidableEq, Repr

/-- The observable actions of the dispatch engine, in program order. -/
inductive Effect
  /-- A message written by `g_print`. -/
  | print (msg : String)
  /-- A diagnostic written by `g_printerr`. -/
  | printerr (msg : String)
  /-- A call `open(pathname, flags, mode)` and the descriptor it returned. -/
  | open_file (pathname : String) (flags : List OpenFlag) (mode : Nat) (fd : Int)
  /-- A call of `g_spawn_async_with_fds` with standard output and standard error both
  duplicated from the descriptor `logfd`. -/
  | spawn_async (working_directory : String) (argv : List String) (logfd : Int)
  /-- The call `g_child_watch_add(pid, command_done, cam)`. -/
  | child_watch_add (pid : GPid) (cam : Nat)
  /-- The call `g_spawn_close_pid(pid)`. -/
  | spawn_close_pid (pid : GPid)
deriving DecidableEq, Repr

/-- The outcomes of the library and system calls made by `run_camera_cmd`. -/
structure Env where
  /-- The call `g_shell_parse_argv(cmd, &argc, &argv, &error)`: the argument vector, or the
  message of the error. -/
  g_shell_parse_argv : String → Except String (List String)
  /-- The call `g_uri_split_network(uri, G_URI_FLAGS_NONE, NULL, &hostname, NULL, NULL)`: the
  host, or `none` when the call returns FALSE. -/
  g_uri_split_network : String → Option String
  /-- The call `open(pathname, flags, mode)`: a descriptor, or a negative number. -/
  open_file : String → List OpenFlag → Nat → Int
  /-- The call `g_spawn_async_with_fds(working_directory, argv, ..., dup(logfd), dup(logfd),
  &error)`: the pid of the child, or the message of the error. -/
  g_spawn_async_with_fds : String → List String → Int → Except String GPid

/-- The mutable state of the daemon: the global list `cameras` and the child watches
registered with the main loop, each a pid with the camera given as callback data. -/
structure State where
  cameras : List camera
  watches : List (GPid × Nat)
deriving DecidableEq, Repr

/-! ## Argument templating (lines 139-148) -/

/-- The placeholder looked for in every argument. -/
def HOSTNAME : String := "$HOSTNAME"

/-- Whether the second character string starts the first one. -/
def starts_with : List Char → List Char → Bool
  | _, [] => true
  | [], _ :: _ => false
  | c :: cs, d :: ds => c == d && starts_with cs ds

/-- The call `strstr(haystack, needle)`: the offset of the first occurrence of `needle`, or
`none` for a null result. -/
def strstr : List Char → List Char → Option Nat
  | [], needle => if starts_with [] needle then some 0 else none
  | c :: cs, needle =>
    if starts_with (c :: cs) needle then some 0 else (strstr cs needle).map (· + 1)

/-- The call `g_strsplit(string, delimiter, 2)` for a string in which `strstr` found the
delimiter at offset `k`: the piece before the first occurrence and the whole remainder. -/
def g_strsplit_2 (string delimiter : List Char) (k : Nat) : List Char × List Char :=
  (string.take k, string.drop (k + delimiter.length))

/-- The body of the templating loop for one argument (lines 141-147). -/
def replace_hostname (hostname arg : String) : String :=
  match strstr arg.data HOSTNAME.data with
  | none => arg
  | some k =>
    let split := g_strsplit_2 arg.data HOSTNAME.data k
    String.mk (split.1 ++ hostname.data ++ split.2)

/-- The templating loop `for (i = 0; i < argc; i++)` (lines 140-148). -/
def replace_hostname_argv (hostname : String) : List String → List String
  | [] => []
  | arg :: rest => replace_hostname hostname arg :: replace_hostname_argv hostname rest

/-! ## Dispatch (lines 102-172 and 235-246) -/

/-- Assignment `cam->busy = b` for the camera at position `cam`. -/
def set_busy : List camera → Nat → Bool → List camera
  | [], _, _ => []
  | c :: cs, 0, b => { c with busy := b } :: cs
  | c :: cs, i + 1, b => c :: set_busy cs i b

/-- The child watch callback `command_done` (lines 102-108). -/
def command_done (s : State) (pid : GPid) (_wait_status : Int) (cam : Nat) :
    State × List Effect :=
  ({ s with cameras := set_busy s.cameras cam false }, [Effect.spawn_close_pid pid])

/-- The flags of the log file (line 153). -/
def log_flags : List OpenFlag := [OpenFlag.O_RDWR, OpenFlag.O_CREAT, OpenFlag.O_APPEND]

/-- The mode of the log file (line 153), 0644. -/
def log_mode : Nat := 0o644

/-- The function `run_camera_cmd` (lines 110-172) for the camera at position `cam`.
`locations` is the `GList`; the empty list is the null pointer, so `locations->data`
(line 135) has no result on it. -/
def run_camera_cmd (env : Env) (s : State) (cam : Nat) (locations : List String) :
    Option (State × List Effect) :=
  match s.cameras[cam]? with
  | none => none
  | some c =>
    if c.busy then some (s, [])
    else
      match env.g_shell_parse_argv c.cmd with
      | .error msg => some (s, [Effect.printerr ("Error parsing command: " ++ msg ++ "\n")])
      | .ok argv =>
        match locations with
        | [] => none
        | data :: _ =>
          match env.g_uri_split_network data with
          | none => some (s, [])
          | some hostname =>
            let argv1 := replace_hostname_argv hostname argv
            let logname := c.path ++ "/logfile"
            let logfd := env.open_file logname log_flags log_mode
            if logfd < 0 then some (s, [Effect.open_file logname log_flags log_mode logfd])
            else
              let s1 : State := { s with cameras := set_busy s.cameras cam true }
              match env.g_spawn_async_with_fds c.path argv1 logfd with
              | .error msg =>
                some ({ s1 with cameras := set_busy s1.cameras cam false },
                  [Effect.open_file logname log_flags log_mode logfd,
                   Effect.spawn_async c.path argv1 logfd,
                   Effect.printerr ("Error spawning command: " ++ msg ++ "\n")])
              | .ok pid =>
                some ({ s1 with watches := s1.watches ++ [(pid, cam)] },
                  [Effect.open_file logname log_flags log_mode logfd,
                   Effect.spawn_async c.path argv1 logfd,
                   Effect.child_watch_add pid cam])

/-- The search loop of `on_resource_available` (lines 240-242): the position of the first
camera whose usn equals the announced one, or `none` when the loop ends with a null `cam`. -/
def find_camera : List camera → String → Option Nat
  | [], _ => none
  | c :: cs, usn => if c.usn = usn then some 0 else (find_camera cs usn).map (· + 1)

/-- The signal handler `on_resource_available` (lines 235-246). -/
def on_resource_available (env : Env) (s : State) (usn : String) (locations : List String) :
    Option (State × List Effect) :=
  match find_camera s.cameras usn with
  | none => some (s, [])
  | some cam => run_camera_cmd env s cam locations

/-! ## The event loop -/

/-- The events handled, one at a time, by the main loop. -/
inductive Event
  /-- The signal `resource-available`, with the outcomes the calls made while handling it
  will have. -/
  | resource_available (env : Env) (usn : String) (locations : List String)
  /-- The child with this pid has exited with this wait status. -/
  | child_exited (pid : GPid) (wait_status : Int)

/-- The watch that fires for `pid`: the camera it carries and the watches that remain (a
child watch is removed once it has fired). -/
def take_watch (pid : GPid) : List (GPid × Nat) → Option (Nat × List (GPid × Nat))
  | [] => none
  | w :: ws =>
    if w.1 = pid then some (w.2, ws)
    else (take_watch pid ws).map (fun r => (r.1, w :: r.2))

/-- One iteration of the main loop. A child can only exit while it is watched, and a fault
ends the program: in both cases there is no next state. -/
def step (s : State) : Event → Option (State × List Effect)
  | .resource_available env usn locations => on_resource_available env s usn locations
  | .child_exited pid wait_status =>
    match take_watch pid s.watches with
    | none => none
    | some (cam, rest) => some (command_done { s with watches := rest } pid wait_status cam)

/-- The main loop on a sequence of events, with the effects of all of them. -/
def run (s : State) : List Event → Option (State × List Effect)
  | [] => some (s, [])
  | e :: es =>
    match step s e with
    | none => none
    | some (s1, fx1) =>
      match run s1 es with
      | none => none
      | some (s2, fx2) => some (s2, fx1 ++ fx2)

/-- The state when the main loop starts: the loaded registry and no child watch. -/
def initial (cameras : List camera) : State := { cameras := cameras, watches := [] }

/-- The number of watched (spawned and not yet completed) processes of a camera. -/
def outstanding (s : State) (cam : Nat) : Nat := s.watches.countP (fun w => w.2 == cam)

/-- The spawn requests among some effects: working directory, argument vector and the
descriptor the output goes to. -/
def spawns : List Effect → List (String × List String × Int)
  | [] => []
  | Effect.spawn_async wd argv fd :: fx => (wd, argv, fd) :: spawns fx
  | _ :: fx => spawns fx

/-- The files opened among some effects: path name, flags and descriptor. -/
def opens : List Effect → List (String × List OpenFlag × Int)
  | [] => []
  | Effect.open_file p fl _ fd :: fx => (p, fl, fd) :: opens fx
  | _ :: fx => opens fx

/-- The completion handlers registered among some effects. -/
def handlers : List Effect → List (GPid × Nat)
  | [] => []
  | Effect.child_watch_add pid cam :: fx => (pid, cam) :: handlers fx
  | _ :: fx => handlers fx

/-- The busy flag of the camera at a position (false when there is no such camera). -/
def busy_at (s : State) (cam : Nat) : Bool :=
  match s.cameras[cam]? with
  | some c => c.busy
  | none => false

/-! ## Configuration (lines 174-233) -/

/-- A group of a parsed key file: its name and its key lines in file order. A key can
stand on several lines. The second component of an entry is what `g_key_file_get_string`
makes of the value on that line: the string, or `none` when the value cannot be returned
as a string (it is not valid UTF-8, say) and the call yields the null pointer. -/
structure KeyGroup where
  name : String
  entries : List (String × Option String)
deriving DecidableEq, Repr

/-- A parsed key file (`GKeyFile`): its groups in file order. GLib merges groups of the
same name when it parses, so the names of a parsed file are distinct. -/
abbrev KeyFile := List KeyGroup

/-- The call `g_key_file_get_groups`: the group names, in order. -/
def g_key_file_get_groups (keyfile : KeyFile) : List String := keyfile.map (fun g => g.name)

/-- The group of a key file with a given name. -/
def lookup_group : KeyFile → String → Option KeyGroup
  | [], _ => none
  | g :: gs, name => if g.name = name then some g else lookup_group gs name

/-- The entry the lookup table of a group holds for a key: the last line with that key
(every later line replaces the earlier one), or `none` when the group has no such key. -/
def last_entry : List (String × Option String) → String → Option (Option String)
  | [], _ => none
  | e :: es, key =>
    match last_entry es key with
    | some v => some v
    | none => if e.1 = key then some e.2 else none

/-- The value `g_key_file_get_string` returns for a key of a group: the string of the last
line with that key, or `none` (the null pointer) when the group has no such key or that
value cannot be returned as a string. -/
def lookup_key (entries : List (String × Option String)) (key : String) : Option String :=
  match last_entry entries key with
  | some (some v) => some v
  | _ => none

/-- The call `g_key_file_get_keys(keyfile, group, NULL, NULL)`: the keys of the group, one
for every key line, in order. The program only asks for groups that
`g_key_file_get_groups` returned. -/
def g_key_file_get_keys (keyfile : KeyFile) (group : String) : List String :=
  match lookup_group keyfile group with
  | some g => g.entries.map (fun e => e.1)
  | none => []

/-- The call `g_key_file_get_string(keyfile, group, key, NULL)`: the value, or `none` for a
null result. -/
def g_key_file_get_string (keyfile : KeyFile) (group key : String) : Option String :=
  match lookup_group keyfile group with
  | some g => lookup_key g.entries key
  | none => none

/-- The function `create_camera` (lines 174-188): the new camera becomes the head of the
list (`malloc` is taken to succeed). -/
def create_camera (cameras : List camera) (usn path cmd : String) : List camera :=
  { busy := false, usn := usn, path := path, cmd := cmd } :: cameras

/-- The loop over the keys of one group (lines 216-225), on the local variables
`path` and `cmd`. -/
def scan_keys (keyfile : KeyFile) (group : String) :
    List String → Option String × Option String → Option String × Option String
  | [], pc => pc
  | key :: keys, (path, cmd) =>
    if key = "path" then
      scan_keys keyfile group keys (g_key_file_get_string keyfile group key, cmd)
    else if key = "command" then
      scan_keys keyfile group keys (path, g_key_file_get_string keyfile group key)
    else scan_keys keyfile group keys (path, cmd)

/-- The loop over the groups (lines 212-230), on the global `cameras`. -/
def load_groups (keyfile : KeyFile) : List String → List camera → List camera
  | [], cameras => cameras
  | group :: groups, cameras =>
    match scan_keys keyfile group (g_key_file_get_keys keyfile group) (none, none) with
    | (some path, some cmd) =>
      load_groups keyfile groups (create_camera cameras group path cmd)
    | _ => load_groups keyfile groups cameras

/-- The function `load_config` (lines 190-233). `file` is the outcome of
`g_key_file_load_from_file`: the parsed file, or the message of the error. -/
def load_config (file : Except String KeyFile) (cameras : List camera) :
    List camera × List Effect :=
  match file with
  | .error msg => (cameras, [Effect.printerr ("Error loading config file: " ++ msg ++ "\n")])
  | .ok keyfile => (load_groups keyfile (g_key_file_get_groups keyfile) cameras, [])

/-! ## Startup (lines 74-100 and 248-321) -/

/-- The outcomes of the calls made by `main` before the main loop. -/
structure Startup where
  /-- The call `g_option_context_parse`: TRUE, or the message of the error. -/
  option_context_parse : Except String Unit
  /-- The call `g_key_file_load_from_file`. -/
  key_file_load : Except String KeyFile
  /-- The call `gupnp_context_new`. -/
  gupnp_context_new : Except String Unit
  /-- The call `g_file_test(XMLFILE, G_FILE_TEST_EXISTS)`. -/
  xml_file_exists : Bool
  /-- The call `gethostname` in `create_dev_xml`. -/
  gethostname : Int
  /-- The call `open(XMLFILE, ...)` in `create_dev_xml`. -/
  xml_open : Int
  /-- The call `gupnp_root_device_new`. -/
  gupnp_root_device_new : Except String Unit
  /-- The call `gssdp_client_new`. -/
  gssdp_client_new : Except String Unit

/-- The result of the function `create_dev_xml` (lines 74-100). -/
def create_dev_xml (gethostname xml_open : Int) : Int :=
  if gethostname < 0 then -1
  else if xml_open < 0 then -1
  else 0

/-- How `main` ends: it returns an exit code, or it has connected `on_resource_available`
to the browser and sits in `g_main_loop_run` (which nothing in the program quits) with the
given state. -/
inductive MainResult
  | exit (code : Int)
  | main_loop (s : State)
deriving DecidableEq, Repr

/-- The function `main` (lines 248-321) up to the main loop, with the diagnostics printed
by `g_printerr`. The global `cameras` starts as the null pointer. -/
def main (o : Startup) : MainResult × List Effect :=
  match o.option_context_parse with
  | .error msg => (MainResult.exit 1, [Effect.print ("option parsing failed: " ++ msg ++ "\n")])
  | .ok _ =>
    let (cameras, fx) := load_config o.key_file_load []
    match o.gupnp_context_new with
    | .error msg =>
      (MainResult.exit 1,
        fx ++ [Effect.printerr ("Error creating the GUPnP context: " ++ msg ++ "\n")])
    | .ok _ =>
      if !o.xml_file_exists && decide (create_dev_xml o.gethostname o.xml_open < 0) then
        (MainResult.exit 1, fx ++ [Effect.printerr "Error creating the device xml\n"])
      else
        match o.gupnp_root_device_new with
        | .error msg =>
          (MainResult.exit 1,
            fx ++ [Effect.printerr ("Error creating the GUPnP root device: " ++ msg ++ "\n")])
        | .ok _ =>
          match o.gssdp_client_new with
          | .error msg =>
            (MainResult.exit 1,
              fx ++ [Effect.printerr ("Failed to create GSSDP client: " ++ msg)])
          | .ok _ => (MainResult.main_loop (initial cameras), fx)

/-! ## A sample environment -/

/-- Splitting of a command line at blanks, tabs and newlines; `cur` is the token being
read. -/
def split_words : List Char → List Char → List String
  | [], cur => if cur = [] then [] else [String.mk cur]
  | c :: cs, cur =>
    if c = ' ' || c = '\t' || c = '\n' then
      (if cur = [] then split_words cs [] else String.mk cur :: split_words cs [])
    else split_words cs (cur ++ [c])

/-- Tokenization by word splitting: what `g_shell_parse_argv` yields on a command line
without quotes, backslashes and comment marks. -/
def shell_words (command_line : String) : Except String (List String) :=
  match split_words command_line.data [] with
  | [] => .error "Text was empty (or contained only whitespace)"
  | w :: ws => .ok (w :: ws)

/-- The part of an authority after its last `@`. -/
def after_userinfo (authority : List Char) : List Char :=
  (authority.reverse.takeWhile (fun x => x != '@')).reverse

/-- The host of a location of the shape `scheme://[userinfo@]host[:port][/...]` with a name
or an IPv4 address as host: what `g_uri_split_network` yields on such a location. A string
without scheme or without authority has no host. -/
def uri_host (uri : String) : Option String :=
  match uri.data with
  | [] => none
  | c :: cs =>
    if !c.isAlpha then none
    else
      match cs.dropWhile (fun x => x.isAlphanum || x = '+' || x = '-' || x = '.') with
      | ':' :: '/' :: '/' :: rest =>
        let authority := rest.takeWhile (fun x => x != '/' && x != '?' && x != '#')
        let hostport := after_userinfo authority
        let host := hostport.takeWhile (fun x => x != ':')
        let port := (hostport.dropWhile (fun x => x != ':')).drop 1
        if port.all (fun x => x.isDigit) then some (String.mk host) else none
      | _ => none

/-- A sample environment: word splitting, the host of a plain location, a log file that
opens on descriptor 3 and a spawn that yields pid 4711. -/
def sample_env : Env where
  g_shell_parse_argv := shell_words
  g_uri_split_network := uri_host
  open_file := fun _ _ _ => 3
  g_spawn_async_with_fds := fun _ _ _ => .ok 4711

/-- A sample environment in which every call fails: no command line tokenizes, no location
has a host, no file opens and no process starts. -/
def failing_env : Env where
  g_shell_parse_argv := fun _ => .error "Text was empty (or contained only whitespace)"
  g_uri_split_network := fun _ => none
  open_file := fun _ _ _ => -1
  g_spawn_async_with_fds := fun _ _ _ => .error "Failed to fork"

/-- The device of the end-to-end scenario. -/
def dev1 : camera := { busy := false, usn := "dev-1", path := "/cam", cmd := "echo $HOSTNAME" }

/-- A device whose command line is the placeholder twice. -/
def dev_twice : camera :=
  { busy := false, usn := "dev-2", path := "/cam", cmd := "$HOSTNAME $HOSTNAME" }

/-! ## Predicates used by the statements -/

/-- The descriptor `open` returns for the log file of a camera (line 153). -/
def log_fd (env : Env) (c : camera) : Int :=
  env.open_file (c.path ++ "/logfile") log_flags log_mode

/-- A dispatch for camera `c` fails at one of its steps: the command line does not
tokenize, or the first location has no host, or the log file does not open, or the spawn
call reports an error. -/
def dispatch_fails (env : Env) (c : camera) (locations : List String) : Prop :=
  (∃ msg, env.g_shell_parse_argv c.cmd = .error msg) ∨
  (∃ argv loc rest, env.g_shell_parse_argv c.cmd = .ok argv ∧ locations = loc :: rest ∧
    (env.g_uri_split_network loc = none ∨
     ∃ hostname, env.g_uri_split_network loc = some hostname ∧
      (log_fd env c < 0 ∨
       ∃ msg, env.g_spawn_async_with_fds c.path (replace_hostname_argv hostname argv)
          (log_fd env c) = .error msg)))

/-- A dispatch for camera `c` goes through: the command line tokenizes, the first location
has a host, the log file opens and the spawn call yields `pid`. -/
def dispatch_succeeds (env : Env) (c : camera) (locations : List String) (pid : GPid) : Prop :=
  ∃ argv loc rest hostname, env.g_shell_parse_argv c.cmd = .ok argv ∧ locations = loc :: rest ∧
    env.g_uri_split_network loc = some hostname ∧ 0 ≤ log_fd env c ∧
    env.g_spawn_async_with_fds c.path (replace_hostname_argv hostname argv) (log_fd env c)
      = .ok pid

/-- The device a section of the configuration describes, in the words of the
specification: a section providing both a working-directory value and a command value
gives a device with the section name as id, those two values and busy = false; a section
missing either value gives none. -/
def device_of (g : KeyGroup) : Option camera :=
  match lookup_key g.entries "path", lookup_key g.entries "command" with
  | some path, some cmd => some { busy := false, usn := g.name, path := path, cmd := cmd }
  | _, _ => none

/-- The sample environment, except that the spawn call fails. -/
def spawn_failing_env : Env :=
  { sample_env with g_spawn_async_with_fds := fun _ _ _ => .error "Failed to fork" }

/-- A startup in which the configuration file cannot be read and every other call
succeeds. -/
def unreadable_config : Startup where
  option_context_parse := .ok ()
  key_file_load := .error "No such file or directory"
  gupnp_context_new := .ok ()
  xml_file_exists := true
  gethostname := 0
  xml_open := 3
  gupnp_root_device_new := .ok ()
  gssdp_client_new := .ok ()

/-- The startup steps of `main` other than the load of the configuration all succeed. -/
def other_steps_succeed (o : Startup) : Prop :=
  o.option_context_parse = .ok () ∧ o.gupnp_context_new = .ok () ∧
  (o.xml_file_exists = true ∨ (0 ≤ o.gethostname ∧ 0 ≤ o.xml_open)) ∧
  o.gupnp_root_device_new = .ok () ∧ o.gssdp_client_new = .ok ()

/-- A complete section in which the key path stands on two lines. -/
def section_1 : KeyGroup :=
  { name := "dev-1",
    entries := [("path", some "/old"), ("path", some "/cam"),
      ("command", some "echo $HOSTNAME")] }

/-- A section without command. -/
def section_2 : KeyGroup :=
  { name := "dev-2", entries := [("path", some "/cam2"), ("comment", some "no command")] }

/-- A section without path. -/
def section_3 : KeyGroup := { name := "dev-3", entries := [("command", some "true")] }

/-- A section with both keys in which the value of path cannot be returned as a string. -/
def section_4 : KeyGroup :=
  { name := "dev-4", entries := [("path", none), ("command", some "echo $HOSTNAME")] }

/-- A configuration with the four sample sections. -/
def sample_key_file : KeyFile := [section_1, section_2, section_3, section_4]


/-! ## Templating: lemmas -/

theorem starts_with_iff (l d : List Char) : starts_with l d = true ↔ ∃ q, l = d ++ q := by
  induction d generalizing l with
  | nil => cases l <;> simp [starts_with]
  | cons x xs ih =>
    cases l with
    | nil => simp [starts_with]
    | cons c cs =>
      simp only [starts_with, Bool.and_eq_true, beq_iff_eq, ih, List.cons_append, List.cons.injEq]
      constructor
      · rintro ⟨rfl, q, rfl⟩
        exact ⟨q, rfl, rfl⟩
      · rintro ⟨q, rfl, rfl⟩
        exact ⟨rfl, q, rfl⟩

theorem strstr_some {l d : List Char} {k : Nat} (h : strstr l d = some k) :
    ∃ p q, l = p ++ d ++ q ∧ p.length = k ∧
      ∀ p1 q1, l = p1 ++ d ++ q1 → k ≤ p1.length := by
  induction l generalizing k with
  | nil =>
    unfold strstr at h
    split at h
    · rename_i hs
      obtain ⟨q, hq⟩ := (starts_with_iff _ _).1 hs
      simp only [Option.some.injEq] at h
      subst h
      exact ⟨[], q, by simpa using hq, rfl, fun _ _ _ => Nat.zero_le _⟩
    · cases h
  | cons c cs ih =>
    unfold strstr at h
    split at h
    · rename_i hs
      obtain ⟨q, hq⟩ := (starts_with_iff _ _).1 hs
      simp only [Option.some.injEq] at h
      subst h
      exact ⟨[], q, by simpa using hq, rfl, fun _ _ _ => Nat.zero_le _⟩
    · rename_i hs
      cases hk : strstr cs d with
      | none => simp [hk] at h
      | some k1 =>
        simp only [hk, Option.map_some', Option.some.injEq] at h
        subst h
        obtain ⟨p, q, hl, hlen, hmin⟩ := ih hk
        refine ⟨c :: p, q, by simp [hl], by simp [hlen], ?_⟩
        intro p1 q1 h1
        cases p1 with
        | nil =>
          exfalso
          apply hs
          exact (starts_with_iff _ _).2 ⟨q1, by simpa using h1⟩
        | cons x xs =>
          simp only [List.cons_append, List.cons.injEq] at h1
          have := hmin xs q1 (by simpa using h1.2)
          simpa using this

theorem strstr_none {l d : List Char} (h : strstr l d = none) (p q : List Char) :
    l ≠ p ++ d ++ q := by
  induction l generalizing p with
  | nil =>
    unfold strstr at h
    split at h
    · cases h
    · rename_i hs
      intro hl
      apply hs
      have hp : p = [] := by
        cases p with
        | nil => rfl
        | cons x xs => simp at hl
      subst hp
      exact (starts_with_iff _ _).2 ⟨q, by simpa using hl⟩
  | cons c cs ih =>
    unfold strstr at h
    split at h
    · cases h
    · rename_i hs
      have hk : strstr cs d = none := by
        cases hk : strstr cs d with
        | none => rfl
        | some k => simp [hk] at h
      intro hl
      cases p with
      | nil => exact hs ((starts_with_iff _ _).2 ⟨q, by simpa using hl⟩)
      | cons x xs =>
        simp only [List.cons_append, List.cons.injEq] at hl
        exact ih hk xs (by simpa using hl.2)

theorem splice_at (p d q h : List Char) :
    (p ++ d ++ q).take p.length ++ h ++ (p ++ d ++ q).drop (p.length + d.length) = p ++ h ++ q := by
  have h1 : (p ++ d ++ q).take p.length = p := by
    rw [List.append_assoc, List.take_left]
  have h2 : (p ++ d ++ q).drop (p.length + d.length) = q := by
    rw [← List.length_append, List.drop_left]
  rw [h1, h2]

/-- A token without the placeholder is left as it is. -/
theorem replace_hostname_absent (hostname arg : String)
    (h : ¬ ∃ p q : String, arg = p ++ HOSTNAME ++ q) : replace_hostname hostname arg = arg := by
  unfold replace_hostname
  cases hk : strstr arg.data HOSTNAME.data with
  | none => rfl
  | some k =>
    exfalso
    obtain ⟨p, q, hl, _, _⟩ := strstr_some hk
    exact h ⟨String.mk p, String.mk q, by apply String.ext; simpa using hl⟩

/-- A token with the placeholder has the host spliced in at the first occurrence. -/
theorem replace_hostname_present (hostname arg : String)
    (h : ∃ p q : String, arg = p ++ HOSTNAME ++ q) :
    ∃ p q : String, arg = p ++ HOSTNAME ++ q ∧
      (∀ p1 q1 : String, arg = p1 ++ HOSTNAME ++ q1 → p.length ≤ p1.length) ∧
      replace_hostname hostname arg = p ++ hostname ++ q := by
  unfold replace_hostname
  cases hk : strstr arg.data HOSTNAME.data with
  | none =>
    exfalso
    obtain ⟨p, q, hpq⟩ := h
    exact strstr_none hk p.data q.data (by rw [hpq]; simp)
  | some k =>
    obtain ⟨p, q, hl, hlen, hmin⟩ := strstr_some hk
    refine ⟨String.mk p, String.mk q, by apply String.ext; simpa using hl, ?_, ?_⟩
    · intro p1 q1 h1
      have := hmin p1.data q1.data (by rw [h1]; simp)
      show p.length ≤ p1.data.length
      rw [hlen]
      exact this
    · apply String.ext
      simp only [g_strsplit_2, String.data_append]
      rw [hl, ← hlen]
      exact splice_at p HOSTNAME.data q hostname.data

theorem replace_hostname_argv_length (hostname : String) (argv : List String) :
    (replace_hostname_argv hostname argv).length = argv.length := by
  induction argv with
  | nil => rfl
  | cons a as ih => simp [replace_hostname_argv, ih]

theorem replace_hostname_argv_getElem? (hostname : String) (argv : List String) (i : Nat) :
    (replace_hostname_argv hostname argv)[i]? = argv[i]?.map (replace_hostname hostname) := by
  induction argv generalizing i with
  | nil => simp [replace_hostname_argv]
  | cons a as ih =>
    cases i with
    | zero => simp [replace_hostname_argv]
    | succ j => simp [replace_hostname_argv, ih]


/-! ## The busy flag: lemmas -/

theorem set_busy_length (cs : List camera) (i : Nat) (b : Bool) :
    (set_busy cs i b).length = cs.length := by
  induction cs generalizing i with
  | nil => rfl
  | cons c cs ih => cases i <;> simp [set_busy, ih]

theorem set_busy_getElem?_self (cs : List camera) (i : Nat) (b : Bool) :
    (set_busy cs i b)[i]? = cs[i]?.map (fun c => { c with busy := b }) := by
  induction cs generalizing i with
  | nil => simp [set_busy]
  | cons c cs ih => cases i <;> simp [set_busy, ih]

theorem set_busy_getElem?_ne (cs : List camera) (i j : Nat) (b : Bool) (h : j ≠ i) :
    (set_busy cs i b)[j]? = cs[j]? := by
  induction cs generalizing i j with
  | nil => simp [set_busy]
  | cons c cs ih =>
    cases i with
    | zero =>
      cases j with
      | zero => exact absurd rfl h
      | succ j => simp [set_busy]
    | succ i =>
      cases j with
      | zero => simp [set_busy]
      | succ j => simpa [set_busy] using ih i j (by omega)

theorem set_busy_same (cs : List camera) (i : Nat) (b : Bool) (c : camera)
    (hc : cs[i]? = some c) (hb : c.busy = b) : set_busy cs i b = cs := by
  induction cs generalizing i with
  | nil => rfl
  | cons x xs ih =>
    cases i with
    | zero =>
      simp only [List.getElem?_cons_zero, Option.some.injEq] at hc
      subst hc
      subst hb
      rfl
    | succ i =>
      simp only [List.getElem?_cons_succ] at hc
      simp [set_busy, ih i hc]

theorem set_busy_set_busy (cs : List camera) (i : Nat) (b b1 : Bool) :
    set_busy (set_busy cs i b) i b1 = set_busy cs i b1 := by
  induction cs generalizing i with
  | nil => rfl
  | cons x xs ih => cases i <;> simp [set_busy, ih]

theorem set_busy_usn (cs : List camera) (i : Nat) (b : Bool) :
    (set_busy cs i b).map (fun c => c.usn) = cs.map (fun c => c.usn) := by
  induction cs generalizing i with
  | nil => rfl
  | cons x xs ih => cases i <;> simp [set_busy, ih]

theorem find_camera_congr (cs ds : List camera) (usn : String)
    (h : cs.map (fun c => c.usn) = ds.map (fun c => c.usn)) :
    find_camera cs usn = find_camera ds usn := by
  induction cs generalizing ds with
  | nil =>
    cases ds with
    | nil => rfl
    | cons d ds => simp at h
  | cons c cs ih =>
    cases ds with
    | nil => simp at h
    | cons d ds =>
      simp only [List.map_cons, List.cons.injEq] at h
      simp [find_camera, h.1, ih ds h.2]

theorem find_camera_some {cs : List camera} {usn : String} {i : Nat}
    (h : find_camera cs usn = some i) :
    ∃ c, cs[i]? = some c ∧ c.usn = usn ∧ ∀ j d, j < i → cs[j]? = some d → d.usn ≠ usn := by
  induction cs generalizing i with
  | nil => simp [find_camera] at h
  | cons c cs ih =>
    unfold find_camera at h
    split at h
    · rename_i hu
      simp only [Option.some.injEq] at h
      subst h
      exact ⟨c, by simp, hu, fun j d hj => absurd hj (Nat.not_lt_zero j)⟩
    · rename_i hu
      cases hk : find_camera cs usn with
      | none => simp [hk] at h
      | some k =>
        simp only [hk, Option.map_some', Option.some.injEq] at h
        subst h
        obtain ⟨d, hd, hdu, hmin⟩ := ih hk
        refine ⟨d, by simpa using hd, hdu, ?_⟩
        intro j e hj he
        cases j with
        | zero =>
          simp only [List.getElem?_cons_zero, Option.some.injEq] at he
          subst he
          exact hu
        | succ j =>
          simp only [List.getElem?_cons_succ] at he
          exact hmin j e (by omega) he

theorem find_camera_none {cs : List camera} {usn : String} :
    find_camera cs usn = none ↔ ∀ c ∈ cs, c.usn ≠ usn := by
  induction cs with
  | nil => simp [find_camera]
  | cons c cs ih =>
    unfold find_camera
    by_cases hu : c.usn = usn
    · simp [hu]
    · simp [hu, ih]

/-- What a call of `run_camera_cmd` that returns can have done: nothing to the state, or
the one successful dispatch. -/
theorem run_camera_cmd_cases {env : Env} {s s1 : State} {cam : Nat} {locations : List String}
    {fx : List Effect} (h : run_camera_cmd env s cam locations = some (s1, fx)) :
    (s1 = s ∧ handlers fx = []) ∨
    (∃ c pid, s.cameras[cam]? = some c ∧ c.busy = false ∧
      s1 = { cameras := set_busy s.cameras cam true, watches := s.watches ++ [(pid, cam)] } ∧
      handlers fx = [(pid, cam)]) := by
  unfold run_camera_cmd at h
  split at h
  · cases h
  · rename_i c hc
    split at h
    · simp only [Option.some.injEq, Prod.mk.injEq] at h
      exact Or.inl ⟨h.1.symm, by rw [← h.2]; rfl⟩
    · rename_i hb
      split at h
      · simp only [Option.some.injEq, Prod.mk.injEq] at h
        exact Or.inl ⟨h.1.symm, by rw [← h.2]; rfl⟩
      · split at h
        · cases h
        · split at h
          · simp only [Option.some.injEq, Prod.mk.injEq] at h
            exact Or.inl ⟨h.1.symm, by rw [← h.2]; rfl⟩
          · simp only at h
            split at h
            · simp only [Option.some.injEq, Prod.mk.injEq] at h
              exact Or.inl ⟨h.1.symm, by rw [← h.2]; rfl⟩
            · split at h
              · simp only [Option.some.injEq, Prod.mk.injEq] at h
                refine Or.inl ⟨?_, by rw [← h.2]; rfl⟩
                rw [← h.1, set_busy_set_busy, set_busy_same _ _ _ c hc (by simpa using hb)]
              · rename_i pid _
                simp only [Option.some.injEq, Prod.mk.injEq] at h
                exact Or.inr ⟨c, pid, hc, by simpa using hb, h.1.symm, by rw [← h.2]; rfl⟩

theorem take_watch_count {pid : GPid} {ws rest : List (GPid × Nat)} {cam : Nat}
    (h : take_watch pid ws = some (cam, rest)) (j : Nat) :
    ws.countP (fun w => w.2 == j) = rest.countP (fun w => w.2 == j) + (if cam = j then 1 else 0) := by
  induction ws generalizing rest with
  | nil => simp [take_watch] at h
  | cons w ws ih =>
    unfold take_watch at h
    split at h
    · simp only [Option.some.injEq, Prod.mk.injEq] at h
      obtain ⟨h1, h2⟩ := h
      subst h1 h2
      by_cases hj : w.2 = j <;> simp [List.countP_cons, hj]
    · cases hk : take_watch pid ws with
      | none => simp [hk] at h
      | some r =>
        obtain ⟨c, rs⟩ := r
        simp only [hk, Option.map_some', Option.some.injEq, Prod.mk.injEq] at h
        obtain ⟨h1, h2⟩ := h
        subst h1 h2
        have := ih hk
        simp only [List.countP_cons, this]
        omega

/-- The invariant of the main loop: a camera has one watched process when it is busy and
none when it is not. -/
theorem step_invariant {s s1 : State} {e : Event} {fx : List Effect}
    (hinv : ∀ cam, outstanding s cam = if busy_at s cam then 1 else 0)
    (h : step s e = some (s1, fx)) :
    ∀ cam, outstanding s1 cam = if busy_at s1 cam then 1 else 0 := by
  cases e with
  | resource_available env usn locations =>
    simp only [step, on_resource_available] at h
    split at h
    · simp only [Option.some.injEq, Prod.mk.injEq] at h
      rw [← h.1]
      exact hinv
    · rename_i i _
      rcases run_camera_cmd_cases h with ⟨rfl, _⟩ | ⟨c, pid, hc, hb, rfl, _⟩
      · exact hinv
      · intro cam
        have hold := hinv cam
        by_cases hcam : cam = i
        · subst hcam
          have h0 : busy_at s cam = false := by simp [busy_at, hc, hb]
          rw [h0] at hold
          simp only [outstanding] at hold
          simp [outstanding, busy_at, set_busy_getElem?_self, hc, List.countP_append, hold]
        · simp only [outstanding] at hold
          have hne : ¬ i = cam := fun h => hcam h.symm
          simp [outstanding, busy_at, set_busy_getElem?_ne _ _ _ _ hcam, List.countP_append,
            hold, hne]
  | child_exited pid wait_status =>
    simp only [step] at h
    split at h
    · cases h
    · rename_i i rest ht
      simp only [command_done, Option.some.injEq, Prod.mk.injEq] at h
      rw [← h.1]
      intro cam
      have hold := hinv cam
      have hcount := take_watch_count ht cam
      simp only [outstanding] at hold
      by_cases hcam : cam = i
      · subst hcam
        have hrest : List.countP (fun w => w.2 == cam) rest = 0 := by
          rw [hcount, if_pos rfl] at hold
          split at hold <;> omega
        cases hc : s.cameras[cam]? <;>
          simp [outstanding, busy_at, set_busy_getElem?_self, hc, hrest]
      · have hne : ¬ i = cam := fun h => hcam h.symm
        rw [hcount] at hold
        simp only [hne, if_false, Nat.add_zero] at hold
        simp only [outstanding, busy_at, set_busy_getElem?_ne _ _ _ _ hcam]
        simpa [busy_at] using hold

theorem run_invariant {s s1 : State} {es : List Event} {fx : List Effect}
    (hinv : ∀ cam, outstanding s cam = if busy_at s cam then 1 else 0)
    (h : run s es = some (s1, fx)) :
    ∀ cam, outstanding s1 cam = if busy_at s1 cam then 1 else 0 := by
  induction es generalizing s fx with
  | nil =>
    simp only [run, Option.some.injEq, Prod.mk.injEq] at h
    rw [← h.1]
    exact hinv
  | cons e es ih =>
    simp only [run] at h
    split at h
    · cases h
    · rename_i s2 fx2 hs
      split at h
      · cases h
      · rename_i s3 fx3 hr
        simp only [Option.some.injEq, Prod.mk.injEq] at h
        obtain ⟨h1, _⟩ := h
        subst h1
        exact ih (step_invariant hinv hs) hr

theorem initial_invariant (cameras : List camera) (hfresh : ∀ c ∈ cameras, c.busy = false) :
    ∀ cam, outstanding (initial cameras) cam = if busy_at (initial cameras) cam then 1 else 0 := by
  intro cam
  have : busy_at (initial cameras) cam = false := by
    simp only [busy_at, initial]
    cases hc : cameras[cam]? with
    | none => rfl
    | some c => exact hfresh c (List.mem_iff_getElem?.2 ⟨cam, hc⟩)
  rw [this]
  simp [outstanding, initial]

/-! ## Claims -/

/-- C1. In every state reached from a freshly loaded registry (no camera busy, no process
outstanding) by any sequence of announcements, with any outcomes of the calls they make,
and completions of watched processes, a camera is busy exactly when one spawned process of
it is outstanding and idle exactly when none is; no camera ever has two. -/
theorem busy_iff_one_outstanding (cameras : List camera)
    (hfresh : ∀ c ∈ cameras, c.busy = false) (events : List Event) (s : State)
    (fx : List Effect) (hrun : run (initial cameras) events = some (s, fx)) (cam : Nat) :
    (busy_at s cam = true ↔ outstanding s cam = 1) ∧
    (busy_at s cam = false ↔ outstanding s cam = 0) ∧
    outstanding s cam ≤ 1 := by
  have h := run_invariant (initial_invariant cameras hfresh) hrun cam
  cases hb : busy_at s cam <;> simp [hb] at h <;> simp [h]

theorem busy_iff_one_outstanding_witness :
    (busy_at ⟨[{ dev1 with busy := true }], [(4711, 0)]⟩ 0 = true ↔
      outstanding ⟨[{ dev1 with busy := true }], [(4711, 0)]⟩ 0 = 1) ∧
    (busy_at ⟨[{ dev1 with busy := true }], [(4711, 0)]⟩ 0 = false ↔
      outstanding ⟨[{ dev1 with busy := true }], [(4711, 0)]⟩ 0 = 0) ∧
    outstanding ⟨[{ dev1 with busy := true }], [(4711, 0)]⟩ 0 ≤ 1 :=
  busy_iff_one_outstanding [dev1] (by decide)
    [Event.resource_available sample_env "dev-1" ["http://10.0.0.5:80/desc.xml"],
     Event.resource_available sample_env "dev-1" [],
     Event.child_exited 4711 0,
     Event.resource_available sample_env "dev-1" ["http://10.0.0.5:80/desc.xml"]]
    ⟨[{ dev1 with busy := true }], [(4711, 0)]⟩
    [Effect.open_file "/cam/logfile" log_flags log_mode 3,
     Effect.spawn_async "/cam" ["echo", "10.0.0.5"] 3, Effect.child_watch_add 4711 0,
     Effect.spawn_close_pid 4711,
     Effect.open_file "/cam/logfile" log_flags log_mode 3,
     Effect.spawn_async "/cam" ["echo", "10.0.0.5"] 3, Effect.child_watch_add 4711 0]
    (by decide) 0


/-! ## Dispatch: lemmas -/

/-- The successful path of `run_camera_cmd`. -/
theorem run_camera_cmd_spawned (env : Env) (s : State) (cam : Nat) (c : camera) (loc : String)
    (rest argv : List String) (hostname : String) (pid : GPid)
    (hc : s.cameras[cam]? = some c) (hb : c.busy = false)
    (hparse : env.g_shell_parse_argv c.cmd = .ok argv)
    (hhost : env.g_uri_split_network loc = some hostname)
    (hopen : 0 ≤ log_fd env c)
    (hspawn : env.g_spawn_async_with_fds c.path (replace_hostname_argv hostname argv)
      (log_fd env c) = .ok pid) :
    run_camera_cmd env s cam (loc :: rest) =
      some ({ cameras := set_busy s.cameras cam true, watches := s.watches ++ [(pid, cam)] },
        [Effect.open_file (c.path ++ "/logfile") log_flags log_mode (log_fd env c),
         Effect.spawn_async c.path (replace_hostname_argv hostname argv) (log_fd env c),
         Effect.child_watch_add pid cam]) := by
  unfold log_fd at hopen hspawn ⊢
  simp [run_camera_cmd, hc, hb, hparse, hhost, not_lt.2 hopen, hspawn]

/-- A failing dispatch of `run_camera_cmd` for an idle camera. -/
theorem run_camera_cmd_failed (env : Env) (s : State) (cam : Nat) (c : camera)
    (locations : List String) (hc : s.cameras[cam]? = some c) (hb : c.busy = false)
    (hfail : dispatch_fails env c locations) :
    ∃ fx, run_camera_cmd env s cam locations = some (s, fx) ∧ handlers fx = [] := by
  have hsame : (⟨set_busy (set_busy s.cameras cam true) cam false, s.watches⟩ : State) = s := by
    rw [set_busy_set_busy, set_busy_same _ _ _ c hc hb]
  rcases hfail with ⟨msg, hp⟩ | ⟨argv, loc, rest, hp, rfl, hrest⟩
  · simp [run_camera_cmd, hc, hb, hp, handlers]
  · rcases hrest with hh | ⟨hostname, hh, ho | ⟨msg, hs⟩⟩
    · simp [run_camera_cmd, hc, hb, hp, hh, handlers]
    · unfold log_fd at ho
      simp [run_camera_cmd, hc, hb, hp, hh, ho, handlers]
    · unfold log_fd at hs
      by_cases ho : env.open_file (c.path ++ "/logfile") log_flags log_mode < 0
      · simp [run_camera_cmd, hc, hb, hp, hh, ho, handlers]
      · simp [run_camera_cmd, hc, hb, hp, hh, ho, hs, hsame, handlers]

/-- A busy camera makes `run_camera_cmd` return at once. -/
theorem run_camera_cmd_busy {env : Env} {s : State} {cam : Nat} {c : camera}
    {locations : List String} (hc : s.cameras[cam]? = some c) (hb : c.busy = true) :
    run_camera_cmd env s cam locations = some (s, []) := by
  simp [run_camera_cmd, hc, hb]

theorem take_watch_append_fresh (pid : GPid) (cam : Nat) (ws : List (GPid × Nat))
    (hfresh : ∀ w ∈ ws, w.1 ≠ pid) : take_watch pid (ws ++ [(pid, cam)]) = some (cam, ws) := by
  induction ws with
  | nil => simp [take_watch]
  | cons w ws ih =>
    have h1 : w.1 ≠ pid := hfresh w (List.mem_cons_self _ _)
    have h2 := ih (fun x hx => hfresh x (List.mem_cons_of_mem _ hx))
    simp [take_watch, h1, h2]

theorem busy_at_set_busy (s : State) (ws : List (GPid × Nat)) (cam : Nat) (c : camera) (b : Bool)
    (hc : s.cameras[cam]? = some c) :
    busy_at { cameras := set_busy s.cameras cam b, watches := ws } cam = b := by
  simp [busy_at, set_busy_getElem?_self, hc]

/-! ## Claims on dispatch -/

/-- C2. Two announcements for a known, idle camera, the second handled before the process
started by the first has completed: the first spawns one process and sets busy, the second
returns at the busy check, whatever its locations and the outcomes of the calls would be,
with no effect and no change of state; together they make exactly one spawn. -/
theorem second_announcement_is_ignored (env1 env2 : Env) (s : State) (usn : String) (cam : Nat)
    (c : camera) (loc : String) (rest locations2 argv : List String) (hostname : String)
    (pid : GPid)
    (hfind : find_camera s.cameras usn = some cam) (hc : s.cameras[cam]? = some c)
    (hb : c.busy = false)
    (hparse : env1.g_shell_parse_argv c.cmd = .ok argv)
    (hhost : env1.g_uri_split_network loc = some hostname)
    (hopen : 0 ≤ log_fd env1 c)
    (hspawn : env1.g_spawn_async_with_fds c.path (replace_hostname_argv hostname argv)
      (log_fd env1 c) = .ok pid) :
    ∃ s1 fx1, on_resource_available env1 s usn (loc :: rest) = some (s1, fx1) ∧
      (spawns fx1).length = 1 ∧ busy_at s1 cam = true ∧
      find_camera s1.cameras usn = some cam ∧
      run_camera_cmd env2 s1 cam locations2 = some (s1, []) ∧
      on_resource_available env2 s1 usn locations2 = some (s1, []) ∧
      ∃ fx, run s [Event.resource_available env1 usn (loc :: rest),
          Event.resource_available env2 usn locations2] = some (s1, fx) ∧
        (spawns fx).length = 1 := by
  have h1 := run_camera_cmd_spawned env1 s cam c loc rest argv hostname pid hc hb hparse hhost
    hopen hspawn
  have hf : find_camera (set_busy s.cameras cam true) usn = some cam := by
    rw [find_camera_congr _ s.cameras usn (set_busy_usn _ _ _), hfind]
  have hc1 : (set_busy s.cameras cam true)[cam]? = some { c with busy := true } := by
    simp [set_busy_getElem?_self, hc]
  have h2 : run_camera_cmd env2
      { cameras := set_busy s.cameras cam true, watches := s.watches ++ [(pid, cam)] } cam
      locations2 = some (_, []) := run_camera_cmd_busy hc1 rfl
  refine ⟨{ cameras := set_busy s.cameras cam true, watches := s.watches ++ [(pid, cam)] },
    [Effect.open_file (c.path ++ "/logfile") log_flags log_mode (log_fd env1 c),
     Effect.spawn_async c.path (replace_hostname_argv hostname argv) (log_fd env1 c),
     Effect.child_watch_add pid cam], ?_, rfl, busy_at_set_busy s _ cam c true hc, hf, h2, ?_, ?_⟩
  · simp only [on_resource_available, hfind]
    exact h1
  · simp only [on_resource_available, hf]
    exact h2
  · refine ⟨[Effect.open_file (c.path ++ "/logfile") log_flags log_mode (log_fd env1 c),
     Effect.spawn_async c.path (replace_hostname_argv hostname argv) (log_fd env1 c),
     Effect.child_watch_add pid cam] ++ ([] ++ []), ?_, by simp [spawns]⟩
    simp only [run, step, on_resource_available, hfind, h1, hf, h2]

theorem second_announcement_is_ignored_witness :
    ∃ s1 fx1, on_resource_available sample_env (initial [dev1]) "dev-1"
        ["http://10.0.0.5:80/desc.xml"] = some (s1, fx1) ∧
      (spawns fx1).length = 1 ∧ busy_at s1 0 = true ∧
      find_camera s1.cameras "dev-1" = some 0 ∧
      run_camera_cmd failing_env s1 0 [] = some (s1, []) ∧
      on_resource_available failing_env s1 "dev-1" [] = some (s1, []) ∧
      ∃ fx, run (initial [dev1]) [Event.resource_available sample_env "dev-1"
          ["http://10.0.0.5:80/desc.xml"],
          Event.resource_available failing_env "dev-1" []] = some (s1, fx) ∧
        (spawns fx).length = 1 :=
  second_announcement_is_ignored sample_env failing_env (initial [dev1]) "dev-1" 0 dev1
    "http://10.0.0.5:80/desc.xml" [] [] ["echo", "$HOSTNAME"] "10.0.0.5" 4711
    (by decide) (by decide) (by decide) (by decide) (by decide) (by decide) (by decide)


/-- C3. The templating loop keeps the number and the order of the tokens; a token without
the placeholder is unchanged, and a token with it becomes p ++ host ++ q, where p and q are
what stands before and after the first occurrence of the placeholder in the token (so a
later occurrence stays in q). The tokens of "capture --host=$HOSTNAME" with host
"192.168.1.5" become the tokens of "capture --host=192.168.1.5". -/
theorem templating_replaces_first_occurrence :
    (∀ (hostname : String) (argv : List String),
      (replace_hostname_argv hostname argv).length = argv.length ∧
      ∀ (i : Nat) (arg : String), argv[i]? = some arg →
        ((¬ ∃ p q : String, arg = p ++ HOSTNAME ++ q) →
          (replace_hostname_argv hostname argv)[i]? = some arg) ∧
        ((∃ p q : String, arg = p ++ HOSTNAME ++ q) →
          ∃ p q : String, arg = p ++ HOSTNAME ++ q ∧
            (∀ p1 q1 : String, arg = p1 ++ HOSTNAME ++ q1 → p.length ≤ p1.length) ∧
            (replace_hostname_argv hostname argv)[i]? = some (p ++ hostname ++ q))) ∧
    (shell_words "capture --host=$HOSTNAME").map (replace_hostname_argv "192.168.1.5") =
      shell_words "capture --host=192.168.1.5" := by
  refine ⟨?_, by decide⟩
  intro hostname argv
  refine ⟨replace_hostname_argv_length hostname argv, ?_⟩
  intro i arg hi
  rw [replace_hostname_argv_getElem?, hi]
  refine ⟨?_, ?_⟩
  · intro h
    simp [replace_hostname_absent hostname arg h]
  · intro h
    obtain ⟨p, q, h1, h2, h3⟩ := replace_hostname_present hostname arg h
    exact ⟨p, q, h1, h2, by simp [h3]⟩

theorem templating_replaces_first_occurrence_witness :
    ∃ p q : String, "--host=$HOSTNAME:$HOSTNAME" = p ++ HOSTNAME ++ q ∧
      (∀ p1 q1 : String, "--host=$HOSTNAME:$HOSTNAME" = p1 ++ HOSTNAME ++ q1 →
        p.length ≤ p1.length) ∧
      (replace_hostname_argv "H" ["capture", "--host=$HOSTNAME:$HOSTNAME"])[1]? =
        some (p ++ "H" ++ q) :=
  ((templating_replaces_first_occurrence.1 "H" ["capture", "--host=$HOSTNAME:$HOSTNAME"]).2 1
    "--host=$HOSTNAME:$HOSTNAME" rfl).2 ⟨"--host=", ":$HOSTNAME", by decide⟩

/-- C4, as stated, fails: for the command line "$HOSTNAME $HOSTNAME" (two tokens, each the
placeholder) and host "H" the argument vector handed to the spawn call is "H", "H"; its
second token is not left as "$HOSTNAME". -/
theorem second_placeholder_token_counterexample :
    shell_words dev_twice.cmd = .ok ["$HOSTNAME", "$HOSTNAME"] ∧
    uri_host "http://H/desc.xml" = some "H" ∧
    (run_camera_cmd sample_env (initial [dev_twice]) 0 ["http://H/desc.xml"]).map
      (fun r => spawns r.2) = some [("/cam", ["H", "H"], 3)] ∧
    (replace_hostname_argv "H" ["$HOSTNAME", "$HOSTNAME"])[1]? ≠ some "$HOSTNAME" ∧
    ¬ ∃ s1 fx wd fd, run_camera_cmd sample_env (initial [dev_twice]) 0 ["http://H/desc.xml"]
        = some (s1, fx) ∧ spawns fx = [(wd, ["H", "$HOSTNAME"], fd)] := by
  refine ⟨by decide, by decide, by decide, by decide, ?_⟩
  rintro ⟨s1, fx, wd, fd, h1, h2⟩
  have h : run_camera_cmd sample_env (initial [dev_twice]) 0 ["http://H/desc.xml"] =
      some (⟨[{ dev_twice with busy := true }], [(4711, 0)]⟩,
        [Effect.open_file "/cam/logfile" log_flags log_mode 3,
         Effect.spawn_async "/cam" ["H", "H"] 3, Effect.child_watch_add 4711 0]) := by decide
  rw [h] at h1
  simp only [Option.some.injEq, Prod.mk.injEq] at h1
  rw [← h1.2] at h2
  revert h2
  simp only [spawns, List.cons.injEq, Prod.mk.injEq]
  rintro ⟨⟨_, h3, _⟩, _⟩
  exact absurd h3 (by decide)

/-- C4, amended. For a command line that tokenizes to the two tokens "$HOSTNAME" and
"$HOSTNAME" and host "H", the argument vector handed to the spawn call is "H", "H": each
token has its own first occurrence of the placeholder replaced. Only a further occurrence
inside one token stays: the single token "$HOSTNAME$HOSTNAME" becomes "H$HOSTNAME". -/
theorem every_placeholder_token_is_replaced (env : Env) (s : State) (cam : Nat) (c : camera)
    (loc : String) (rest : List String)
    (hc : s.cameras[cam]? = some c) (hb : c.busy = false)
    (hparse : env.g_shell_parse_argv c.cmd = .ok ["$HOSTNAME", "$HOSTNAME"])
    (hhost : env.g_uri_split_network loc = some "H")
    (hopen : 0 ≤ log_fd env c) :
    (∃ s1 fx, run_camera_cmd env s cam (loc :: rest) = some (s1, fx) ∧
      spawns fx = [(c.path, ["H", "H"], log_fd env c)]) ∧
    replace_hostname_argv "H" ["$HOSTNAME$HOSTNAME"] = ["H$HOSTNAME"] := by
  refine ⟨?_, by decide⟩
  have hargv : replace_hostname_argv "H" ["$HOSTNAME", "$HOSTNAME"] = ["H", "H"] := by decide
  unfold log_fd at hopen ⊢
  cases hs : env.g_spawn_async_with_fds c.path ["H", "H"]
      (env.open_file (c.path ++ "/logfile") log_flags log_mode) with
  | error msg =>
    simp only [run_camera_cmd, hc, hb, hparse, hhost, not_lt.2 hopen, hargv, hs]
    exact ⟨_, _, rfl, by simp [spawns]⟩
  | ok pid =>
    simp only [run_camera_cmd, hc, hb, hparse, hhost, not_lt.2 hopen, hargv, hs]
    exact ⟨_, _, rfl, by simp [spawns]⟩

theorem every_placeholder_token_is_replaced_witness :
    (∃ s1 fx, run_camera_cmd sample_env (initial [dev_twice]) 0 ["http://H/desc.xml"]
        = some (s1, fx) ∧
      spawns fx = [("/cam", ["H", "H"], 3)]) ∧
    replace_hostname_argv "H" ["$HOSTNAME$HOSTNAME"] = ["H$HOSTNAME"] :=
  every_placeholder_token_is_replaced sample_env (initial [dev_twice]) 0 dev_twice
    "http://H/desc.xml" [] (by decide) (by decide) (by decide) (by decide) (by decide)

/-- C5. For a known, idle camera whose command line tokenizes, whose first location has a
host, whose log file opens and whose spawn succeeds, one announcement makes exactly one
spawn request, with the path of the camera as working directory, the tokens of the command
with the host put in as arguments and its output on the descriptor of path ++ "/logfile",
opened once, in append mode; `command_done` is registered for the new pid with this camera,
and the camera is busy afterwards. `command_done` then clears busy whatever the wait
status, and so does the completion event of that process in the main loop (the pid of a
new child being none of those still watched). -/
theorem dispatch_then_completion (env : Env) (s : State) (usn : String) (cam : Nat) (c : camera)
    (loc : String) (rest argv : List String) (hostname : String) (pid : GPid)
    (hfind : find_camera s.cameras usn = some cam) (hc : s.cameras[cam]? = some c)
    (hb : c.busy = false)
    (hparse : env.g_shell_parse_argv c.cmd = .ok argv)
    (hhost : env.g_uri_split_network loc = some hostname)
    (hopen : 0 ≤ log_fd env c)
    (hspawn : env.g_spawn_async_with_fds c.path (replace_hostname_argv hostname argv)
      (log_fd env c) = .ok pid) :
    ∃ s1 fx, on_resource_available env s usn (loc :: rest) = some (s1, fx) ∧
      spawns fx = [(c.path, replace_hostname_argv hostname argv, log_fd env c)] ∧
      opens fx = [(c.path ++ "/logfile", log_flags, log_fd env c)] ∧
      OpenFlag.O_APPEND ∈ log_flags ∧
      handlers fx = [(pid, cam)] ∧
      busy_at s1 cam = true ∧
      (∀ wait_status : Int, busy_at (command_done s1 pid wait_status cam).1 cam = false) ∧
      ((∀ w ∈ s.watches, w.1 ≠ pid) → ∀ wait_status : Int, ∃ s2 fx2,
        step s1 (Event.child_exited pid wait_status) = some (s2, fx2) ∧
        busy_at s2 cam = false ∧ spawns fx2 = []) := by
  have h1 := run_camera_cmd_spawned env s cam c loc rest argv hostname pid hc hb hparse hhost
    hopen hspawn
  refine ⟨(⟨set_busy s.cameras cam true, s.watches ++ [(pid, cam)]⟩ : State),
    [Effect.open_file (c.path ++ "/logfile") log_flags log_mode (log_fd env c),
     Effect.spawn_async c.path (replace_hostname_argv hostname argv) (log_fd env c),
     Effect.child_watch_add pid cam], ?_, rfl, rfl, by decide, rfl,
     busy_at_set_busy s _ cam c true hc, ?_, ?_⟩
  · simp only [on_resource_available, hfind]
    exact h1
  · intro wait_status
    simp only [command_done, set_busy_set_busy]
    exact busy_at_set_busy s _ cam c false hc
  · intro hpid wait_status
    refine ⟨(⟨set_busy (set_busy s.cameras cam true) cam false, s.watches⟩ : State),
      [Effect.spawn_close_pid pid], ?_, ?_, rfl⟩
    · simp only [step, take_watch_append_fresh pid cam s.watches hpid, command_done]
    · rw [set_busy_set_busy]
      exact busy_at_set_busy s _ cam c false hc

/-- The end-to-end scenario of C5: device dev-1 with path /cam and command
"echo $HOSTNAME", announced at http://10.0.0.5:80/desc.xml. -/
theorem dispatch_then_completion_witness :
    ∃ s1 fx, on_resource_available sample_env (initial [dev1]) "dev-1"
        ["http://10.0.0.5:80/desc.xml"] = some (s1, fx) ∧
      spawns fx = [("/cam", ["echo", "10.0.0.5"], 3)] ∧
      opens fx = [("/cam/logfile", log_flags, 3)] ∧
      OpenFlag.O_APPEND ∈ log_flags ∧
      handlers fx = [(4711, 0)] ∧
      busy_at s1 0 = true ∧
      busy_at (command_done s1 4711 0 0).1 0 = false ∧
      busy_at (command_done s1 4711 256 0).1 0 = false ∧
      ∃ s2 fx2, step s1 (Event.child_exited 4711 256) = some (s2, fx2) ∧
        busy_at s2 0 = false ∧ spawns fx2 = [] :=
  match dispatch_then_completion sample_env (initial [dev1]) "dev-1" 0 dev1
    "http://10.0.0.5:80/desc.xml" [] ["echo", "$HOSTNAME"] "10.0.0.5" 4711
    (by decide) (by decide) (by decide) (by decide) (by decide) (by decide) (by decide) with
  | ⟨s1, fx, h1, h2, h3, h4, h5, h6, h7, h8⟩ =>
    ⟨s1, fx, h1, h2, h3, h4, h5, h6, h7 0, h7 256, h8 (by decide) 256⟩


/-- C6. In a state reached by the main loop, when the dispatch for a known, idle camera
fails at any step (tokenization, host of the first location, opening the log file, the
spawn call), the call returns with the state as it was: the camera is idle, none of its
processes is outstanding, no completion handler was registered and every camera is
unchanged; a later announcement for the same camera whose dispatch goes through spawns. -/
theorem failed_dispatch_leaves_idle (cameras0 : List camera)
    (hfresh : ∀ c ∈ cameras0, c.busy = false) (events : List Event) (fx0 : List Effect)
    (env : Env) (s : State) (usn : String) (cam : Nat) (c : camera) (locations : List String)
    (hrun : run (initial cameras0) events = some (s, fx0))
    (hfind : find_camera s.cameras usn = some cam) (hc : s.cameras[cam]? = some c)
    (hb : c.busy = false) (hfail : dispatch_fails env c locations) :
    ∃ s1 fx, on_resource_available env s usn locations = some (s1, fx) ∧
      s1 = s ∧ busy_at s1 cam = false ∧ outstanding s1 cam = 0 ∧ handlers fx = [] ∧
      ∀ (env2 : Env) (locations2 : List String) (pid2 : GPid),
        dispatch_succeeds env2 c locations2 pid2 →
        ∃ s2 fx2, on_resource_available env2 s1 usn locations2 = some (s2, fx2) ∧
          (spawns fx2).length = 1 ∧ handlers fx2 = [(pid2, cam)] ∧ busy_at s2 cam = true := by
  obtain ⟨fx, h1, h2⟩ := run_camera_cmd_failed env s cam c locations hc hb hfail
  have hidle : busy_at s cam = false := by simp [busy_at, hc, hb]
  have hout : outstanding s cam = 0 := by
    have := run_invariant (initial_invariant cameras0 hfresh) hrun cam
    simpa [hidle] using this
  refine ⟨s, fx, ?_, rfl, hidle, hout, h2, ?_⟩
  · simp only [on_resource_available, hfind]
    exact h1
  · rintro env2 locations2 pid2 ⟨argv, loc, rest, hostname, hp, rfl, hh, ho, hs⟩
    have h3 := run_camera_cmd_spawned env2 s cam c loc rest argv hostname pid2 hc hb hp hh ho hs
    refine ⟨(⟨set_busy s.cameras cam true, s.watches ++ [(pid2, cam)]⟩ : State),
      [Effect.open_file (c.path ++ "/logfile") log_flags log_mode (log_fd env2 c),
       Effect.spawn_async c.path (replace_hostname_argv hostname argv) (log_fd env2 c),
       Effect.child_watch_add pid2 cam], ?_, rfl, rfl, busy_at_set_busy s _ cam c true hc⟩
    simp only [on_resource_available, hfind]
    exact h3

theorem failed_dispatch_leaves_idle_witness :
    ∃ s1 fx, on_resource_available spawn_failing_env (initial [dev1]) "dev-1" ["http://10.0.0.5:80/desc.xml"] = some (s1, fx) ∧
      s1 = initial [dev1] ∧ busy_at s1 0 = false ∧ outstanding s1 0 = 0 ∧ handlers fx = [] ∧
      ∃ s2 fx2, on_resource_available sample_env s1 "dev-1" ["http://10.0.0.5:80/desc.xml"]
          = some (s2, fx2) ∧
        (spawns fx2).length = 1 ∧ handlers fx2 = [(4711, 0)] ∧ busy_at s2 0 = true :=
  match failed_dispatch_leaves_idle [dev1] (by decide) [] []
      spawn_failing_env (initial [dev1]) "dev-1" 0 dev1 ["http://10.0.0.5:80/desc.xml"] rfl (by decide)
      (by decide) (by decide)
      (Or.inr ⟨["echo", "$HOSTNAME"], "http://10.0.0.5:80/desc.xml", [], by decide, rfl,
        Or.inr ⟨"10.0.0.5", by decide, Or.inr ⟨"Failed to fork", rfl⟩⟩⟩) with
  | ⟨s1, fx, h1, h2, h3, h4, h5, h6⟩ =>
    ⟨s1, fx, h1, h2, h3, h4, h5,
      h6 sample_env ["http://10.0.0.5:80/desc.xml"] 4711
        ⟨["echo", "$HOSTNAME"], "http://10.0.0.5:80/desc.xml", [], "10.0.0.5", by decide, rfl,
          by decide, by decide, by decide⟩⟩

/-- C7. An announcement whose id is the usn of no camera makes `on_resource_available` do
nothing: no effect at all (no spawn, no diagnostic) and the state, every busy flag included,
as it was. When some camera has that usn, `on_resource_available` is one call of
`run_camera_cmd`, on the first camera whose usn equals the announced id. -/
theorem unknown_id_is_ignored :
    (∀ (env : Env) (s : State) (usn : String) (locations : List String),
      (∀ c ∈ s.cameras, c.usn ≠ usn) →
      on_resource_available env s usn locations = some (s, [])) ∧
    (∀ (env : Env) (s : State) (usn : String) (locations : List String),
      (∃ c ∈ s.cameras, c.usn = usn) →
      ∃ cam c, s.cameras[cam]? = some c ∧ c.usn = usn ∧
        (∀ j d, j < cam → s.cameras[j]? = some d → d.usn ≠ usn) ∧
        on_resource_available env s usn locations = run_camera_cmd env s cam locations) := by
  refine ⟨?_, ?_⟩
  · intro env s usn locations h
    simp [on_resource_available, find_camera_none.2 h]
  · intro env s usn locations h
    cases hf : find_camera s.cameras usn with
    | none =>
      obtain ⟨c, hc, hu⟩ := h
      exact absurd hu (find_camera_none.1 hf c hc)
    | some cam =>
      obtain ⟨c, hc, hu, hmin⟩ := find_camera_some hf
      exact ⟨cam, c, hc, hu, hmin, by simp [on_resource_available, hf]⟩

theorem unknown_id_is_ignored_witness :
    on_resource_available sample_env (initial [dev1]) "dev-9" [] = some (initial [dev1], []) ∧
    ∃ cam c, (initial [dev_twice, dev1]).cameras[cam]? = some c ∧ c.usn = "dev-1" ∧
      on_resource_available sample_env (initial [dev_twice, dev1]) "dev-1"
          ["http://10.0.0.5:80/desc.xml"]
        = run_camera_cmd sample_env (initial [dev_twice, dev1]) cam
          ["http://10.0.0.5:80/desc.xml"] :=
  ⟨unknown_id_is_ignored.1 sample_env (initial [dev1]) "dev-9" [] (by decide),
   match unknown_id_is_ignored.2 sample_env (initial [dev_twice, dev1]) "dev-1"
      ["http://10.0.0.5:80/desc.xml"] ⟨dev1, by decide, rfl⟩ with
   | ⟨cam, c, h1, h2, _, h4⟩ => ⟨cam, c, h1, h2, h4⟩⟩

/-- When the first location has no host, the dispatch ends without effect. -/
theorem run_camera_cmd_no_host (env : Env) (s : State) (cam : Nat) (c : camera) (loc : String)
    (rest argv : List String) (hc : s.cameras[cam]? = some c) (hb : c.busy = false)
    (hparse : env.g_shell_parse_argv c.cmd = .ok argv)
    (hhost : env.g_uri_split_network loc = none) :
    run_camera_cmd env s cam (loc :: rest) = some (s, []) := by
  simp [run_camera_cmd, hc, hb, hparse, hhost]

/-- C10, at the failing input. For an idle camera whose command line tokenizes, the call
of `run_camera_cmd` with the empty list of locations has no result: line 135 reads
`locations->data` through the null pointer. So does the announcement that leads to it. -/
theorem empty_locations_fault :
    (initial [dev1]).cameras[0]? = some dev1 ∧ dev1.busy = false ∧
    sample_env.g_shell_parse_argv dev1.cmd = .ok ["echo", "$HOSTNAME"] ∧
    run_camera_cmd sample_env (initial [dev1]) 0 [] = none ∧
    on_resource_available sample_env (initial [dev1]) "dev-1" [] = none := by
  decide


/-! ## Configuration: lemmas -/

theorem last_entry_none_iff (es : List (String × Option String)) (key : String) :
    last_entry es key = none ↔ key ∉ es.map (fun e => e.1) := by
  induction es with
  | nil => simp [last_entry]
  | cons e es ih =>
    unfold last_entry
    cases hl : last_entry es key with
    | some v =>
      have hmem : key ∈ es.map (fun e => e.1) := by
        by_contra hn
        rw [ih.2 hn] at hl
        cases hl
      simp only [List.map_cons, List.mem_cons, not_or]
      constructor
      · intro h
        cases h
      · intro h
        exact absurd hmem h.2
    | none =>
      have hn := ih.1 hl
      by_cases h : e.1 = key
      · simp [h]
      · have h1 : ¬ key = e.1 := fun h2 => h h2.symm
        simpa [h, h1] using hn

/-- The entry held for a key is the one of the last line with that key. -/
theorem last_entry_append (es1 es2 : List (String × Option String)) (key : String)
    (v : Option String) (h : key ∉ es2.map (fun e => e.1)) :
    last_entry (es1 ++ (key, v) :: es2) key = some v := by
  induction es1 with
  | nil => simp [last_entry, (last_entry_none_iff es2 key).2 h]
  | cons e es ih => simp [last_entry, ih]

theorem lookup_key_of_absent (es : List (String × Option String)) (key : String)
    (h : key ∉ es.map (fun e => e.1)) : lookup_key es key = none := by
  simp [lookup_key, (last_entry_none_iff es key).2 h]

theorem lookup_group_of_mem (keyfile : KeyFile) (g : KeyGroup)
    (hnames : (keyfile.map (fun g => g.name)).Nodup) (hg : g ∈ keyfile) :
    lookup_group keyfile g.name = some g := by
  induction keyfile with
  | nil => simp at hg
  | cons h t ih =>
    simp only [List.map_cons, List.nodup_cons] at hnames
    unfold lookup_group
    rcases List.mem_cons.1 hg with rfl | hg1
    · simp
    · have hne : h.name ≠ g.name := by
        intro heq
        apply hnames.1
        rw [heq]
        exact List.mem_map_of_mem _ hg1
      simp [hne, ih hnames.2 hg1]

theorem scan_keys_eq (keyfile : KeyFile) (group : String) (keys : List String)
    (path cmd : Option String) :
    scan_keys keyfile group keys (path, cmd) =
      (if "path" ∈ keys then g_key_file_get_string keyfile group "path" else path,
       if "command" ∈ keys then g_key_file_get_string keyfile group "command" else cmd) := by
  induction keys generalizing path cmd with
  | nil => simp [scan_keys]
  | cons key keys ih =>
    unfold scan_keys
    by_cases h1 : key = "path"
    · subst h1
      rw [if_pos rfl, ih]
      have hne : ¬ "command" = "path" := by decide
      by_cases hp : "path" ∈ keys <;> simp [hp, hne]
    · rw [if_neg h1]
      by_cases h2 : key = "command"
      · subst h2
        rw [if_pos rfl, ih]
        have hne : ¬ "path" = "command" := by decide
        by_cases hp : "command" ∈ keys <;> simp [hp, hne]
      · rw [if_neg h2, ih]
        have h3 : ¬ "path" = key := fun h => h1 h.symm
        have h4 : ¬ "command" = key := fun h => h2 h.symm
        simp [h3, h4]

theorem scan_keys_of_mem (keyfile : KeyFile) (g : KeyGroup)
    (hnames : (keyfile.map (fun g => g.name)).Nodup) (hg : g ∈ keyfile) :
    scan_keys keyfile g.name (g_key_file_get_keys keyfile g.name) (none, none) =
      (lookup_key g.entries "path", lookup_key g.entries "command") := by
  rw [scan_keys_eq]
  simp only [g_key_file_get_keys, g_key_file_get_string, lookup_group_of_mem keyfile g hnames hg]
  have hp := lookup_key_of_absent g.entries "path"
  have hc := lookup_key_of_absent g.entries "command"
  by_cases h1 : "path" ∈ g.entries.map (fun e => e.1) <;>
    by_cases h2 : "command" ∈ g.entries.map (fun e => e.1) <;>
    simp [h1, h2, hp, hc]

theorem load_groups_eq (keyfile : KeyFile) (hnames : (keyfile.map (fun g => g.name)).Nodup)
    (gs : List KeyGroup) (hgs : ∀ g ∈ gs, g ∈ keyfile) (cameras : List camera) :
    load_groups keyfile (gs.map (fun g => g.name)) cameras =
      (gs.filterMap device_of).reverse ++ cameras := by
  induction gs generalizing cameras with
  | nil => simp [load_groups]
  | cons g gs ih =>
    have hg : g ∈ keyfile := hgs g (List.mem_cons_self _ _)
    have hrest : ∀ x ∈ gs, x ∈ keyfile := fun x hx => hgs x (List.mem_cons_of_mem _ hx)
    simp only [List.map_cons, load_groups, scan_keys_of_mem keyfile g hnames hg]
    cases hp : lookup_key g.entries "path" with
    | none => simp [device_of, hp, ih hrest]
    | some path =>
      cases hc : lookup_key g.entries "command" with
      | none => simp [device_of, hp, hc, ih hrest]
      | some cmd => simp [device_of, hp, hc, ih hrest, create_camera]

/-- The registry built by `load_config` is what the sections describe, last section
first. -/
theorem load_config_eq (keyfile : KeyFile) (hnames : (keyfile.map (fun g => g.name)).Nodup) :
    load_config (.ok keyfile) [] = ((keyfile.filterMap device_of).reverse, []) := by
  simp [load_config, g_key_file_get_groups, load_groups_eq keyfile hnames keyfile (fun _ h => h)]

theorem device_of_usn {g : KeyGroup} {c : camera} (h : device_of g = some c) :
    c.usn = g.name := by
  unfold device_of at h
  split at h
  · simp only [Option.some.injEq] at h
    rw [← h]
  · cases h

theorem devices_come_from_sections (gs : List KeyGroup) (c : camera)
    (hc : c ∈ gs.filterMap device_of) : ∃ g ∈ gs, device_of g = some c := by
  obtain ⟨g, hg, hd⟩ := List.mem_filterMap.1 hc
  exact ⟨g, hg, hd⟩

theorem filter_other_name (gs : List KeyGroup) (name : String)
    (h : name ∉ gs.map (fun g => g.name)) :
    (gs.filterMap device_of).filter (fun c => c.usn == name) = [] := by
  rw [List.filter_eq_nil_iff]
  intro c hc
  obtain ⟨g, hg, hd⟩ := devices_come_from_sections gs c hc
  have hu := device_of_usn hd
  intro heq
  simp only [beq_iff_eq] at heq
  apply h
  rw [← heq, hu]
  exact List.mem_map_of_mem _ hg

theorem filter_own_name (gs : List KeyGroup) (g : KeyGroup)
    (hnames : (gs.map (fun g => g.name)).Nodup) (hg : g ∈ gs) :
    (gs.filterMap device_of).filter (fun c => c.usn == g.name) = (device_of g).toList := by
  induction gs with
  | nil => simp at hg
  | cons h t ih =>
    simp only [List.map_cons, List.nodup_cons] at hnames
    rcases List.mem_cons.1 hg with rfl | hg1
    · cases hd : device_of g with
      | none => simp [List.filterMap_cons, hd, filter_other_name t g.name hnames.1]
      | some c =>
        have hu := device_of_usn hd
        simp [List.filterMap_cons, hd, List.filter_cons, hu,
          filter_other_name t g.name hnames.1]
    · have hne : h.name ≠ g.name := by
        intro heq
        apply hnames.1
        rw [heq]
        exact List.mem_map_of_mem _ hg1
      cases hd : device_of h with
      | none => simp [List.filterMap_cons, hd, ih hnames.2 hg1]
      | some c =>
        have hu := device_of_usn hd
        simp [List.filterMap_cons, hd, List.filter_cons, hu, hne, ih hnames.2 hg1]

/-! ## Claims on configuration and startup -/

/-- C8, as stated, fails: the section dev-4 has both a "path" and a "command" key, but the
value of "path" cannot be returned as a string, `g_key_file_get_string` yields the null
pointer for it and the test of line 226 skips the section: the registry has no device for
it. -/
theorem unreadable_value_counterexample :
    ([section_4].map (fun g => g.name)).Nodup ∧
    "path" ∈ section_4.entries.map (fun e => e.1) ∧
    "command" ∈ section_4.entries.map (fun e => e.1) ∧
    g_key_file_get_keys [section_4] "dev-4" = ["path", "command"] ∧
    g_key_file_get_string [section_4] "dev-4" "path" = none ∧
    (load_config (.ok [section_4]) []).1 = [] ∧
    ¬ ∃ c ∈ (load_config (.ok [section_4]) []).1, c.usn = section_4.name := by
  decide

/-- C8, amended. For a configuration that loads, with distinct section names, the registry
built by `load_config` and `create_camera` has, for each section for which
`g_key_file_get_string` returns a value for both the "path" and the "command" key (the key
is there and the value on its last line can be returned as a string), exactly one device
with the section name as usn, and its path and cmd are those two values and busy is false.
It has no device with the name of a section that lacks either key or in which the value of
either key cannot be returned, and no device that comes from no section. Nothing is
reported. A key has no held entry exactly when the section has no line with it. -/
theorem registry_of_configuration (keyfile : KeyFile)
    (hnames : (keyfile.map (fun g => g.name)).Nodup) :
    (∀ g ∈ keyfile, ∀ path cmd, last_entry g.entries "path" = some (some path) →
      last_entry g.entries "command" = some (some cmd) →
      (load_config (.ok keyfile) []).1.filter (fun c => c.usn == g.name) =
        [{ busy := false, usn := g.name, path := path, cmd := cmd }]) ∧
    (∀ g ∈ keyfile, ("path" ∉ g.entries.map (fun e => e.1) ∨
        "command" ∉ g.entries.map (fun e => e.1) ∨
        last_entry g.entries "path" = some none ∨
        last_entry g.entries "command" = some none) →
      (load_config (.ok keyfile) []).1.filter (fun c => c.usn == g.name) = []) ∧
    (∀ c ∈ (load_config (.ok keyfile) []).1, c.busy = false ∧
      ∃ g ∈ keyfile, c.usn = g.name ∧ last_entry g.entries "path" = some (some c.path) ∧
        last_entry g.entries "command" = some (some c.cmd)) ∧
    (load_config (.ok keyfile) []).2 = [] ∧
    (∀ g ∈ keyfile, ∀ key, last_entry g.entries key = none ↔
      key ∉ g.entries.map (fun e => e.1)) := by
  rw [load_config_eq keyfile hnames]
  simp only [List.filter_reverse]
  refine ⟨?_, ?_, ?_, by trivial, fun g _ key => last_entry_none_iff g.entries key⟩
  · intro g hg path cmd hp hc
    rw [filter_own_name keyfile g hnames hg]
    simp [device_of, lookup_key, hp, hc]
  · intro g hg hmiss
    rw [filter_own_name keyfile g hnames hg]
    have hnone : lookup_key g.entries "path" = none ∨ lookup_key g.entries "command" = none := by
      rcases hmiss with h | h | h | h
      · exact Or.inl (lookup_key_of_absent _ _ h)
      · exact Or.inr (lookup_key_of_absent _ _ h)
      · exact Or.inl (by simp [lookup_key, h])
      · exact Or.inr (by simp [lookup_key, h])
    rcases hnone with h | h
    · simp [device_of, h]
    · cases hp1 : lookup_key g.entries "path" <;> simp [device_of, hp1, h]
  · intro c hc
    obtain ⟨g, hg, hd⟩ := devices_come_from_sections keyfile c (List.mem_reverse.1 hc)
    have hval : ∀ key v, lookup_key g.entries key = some v →
        last_entry g.entries key = some (some v) := by
      intro key v hv
      unfold lookup_key at hv
      split at hv
      · rename_i w hw
        simp only [Option.some.injEq] at hv
        rw [hw, hv]
      · cases hv
    unfold device_of at hd
    split at hd
    · rename_i path cmd hp1 hc1
      simp only [Option.some.injEq] at hd
      rw [← hd]
      exact ⟨rfl, g, hg, rfl, hval _ _ hp1, hval _ _ hc1⟩
    · cases hd

theorem registry_of_configuration_witness :
    (load_config (.ok sample_key_file) []).1.filter (fun c => c.usn == "dev-1") = [dev1] ∧
    (load_config (.ok sample_key_file) []).1.filter (fun c => c.usn == "dev-2") = [] ∧
    (load_config (.ok sample_key_file) []).1.filter (fun c => c.usn == "dev-3") = [] ∧
    (load_config (.ok sample_key_file) []).1.filter (fun c => c.usn == "dev-4") = [] ∧
    (load_config (.ok sample_key_file) []).1 = [dev1] :=
  ⟨(registry_of_configuration sample_key_file (by decide)).1 section_1 (by decide)
      "/cam" "echo $HOSTNAME" (by decide) (by decide),
   (registry_of_configuration sample_key_file (by decide)).2.1 section_2 (by decide)
      (Or.inr (Or.inl (by decide))),
   (registry_of_configuration sample_key_file (by decide)).2.1 section_3 (by decide)
      (Or.inl (by decide)),
   (registry_of_configuration sample_key_file (by decide)).2.1 section_4 (by decide)
      (Or.inr (Or.inr (Or.inl (by decide)))),
   by decide⟩

/-- C9, as stated, fails: with a configuration file that cannot be read and every other
startup call succeeding, `main` does not return 1; it reaches the main loop, with an empty
registry. -/
theorem unreadable_configuration_counterexample :
    unreadable_config.key_file_load = .error "No such file or directory" ∧
    (main unreadable_config).1 ≠ MainResult.exit 1 ∧
    (main unreadable_config).1 = MainResult.main_loop (initial []) := by
  decide

/-- C9, amended. When the configuration file cannot be read or parsed as a whole,
`load_config` prints a diagnostic and leaves the registry empty, and startup goes on as it
does for an empty configuration: `main` returns 1 only if another startup step fails, and
when the other steps succeed it subscribes and runs the main loop with an empty
registry. -/
theorem unreadable_configuration_starts_empty (o : Startup) (msg : String)
    (hload : o.key_file_load = .error msg) :
    load_config o.key_file_load [] =
      ([], [Effect.printerr ("Error loading config file: " ++ msg ++ "\n")]) ∧
    (main o).1 = (main { o with key_file_load := .ok [] }).1 ∧
    ((main o).1 = MainResult.exit 1 ∨ (main o).1 = MainResult.main_loop (initial [])) ∧
    (other_steps_succeed o → (main o).1 = MainResult.main_loop (initial [])) ∧
    ((main o).1 = MainResult.exit 1 → ¬ other_steps_succeed o) := by
  obtain ⟨op, kf, ctx, ex, gh, xo, rd, cl⟩ := o
  simp only at hload
  subst hload
  refine ⟨by simp [load_config], ?_, ?_, ?_, ?_⟩
  · cases op <;> cases ctx <;> cases rd <;> cases cl <;>
      simp [main, load_config, load_groups, g_key_file_get_groups] <;> split <;> rfl
  · cases op <;> cases ctx <;> cases rd <;> cases cl <;>
      simp [main, load_config] <;> split <;> simp
  · rintro ⟨h1, h2, h3, h4, h5⟩
    simp only at h1 h2 h3 h4 h5
    subst h1 h2 h4 h5
    rcases h3 with h3 | ⟨h3, h6⟩
    · simp [main, load_config, h3]
    · simp [main, load_config, create_dev_xml, not_lt.2 h3, not_lt.2 h6]
  · intro hexit ⟨h1, h2, h3, h4, h5⟩
    simp only at h1 h2 h3 h4 h5
    subst h1 h2 h4 h5
    rcases h3 with h3 | ⟨h3, h6⟩
    · simp [main, load_config, h3] at hexit
    · simp [main, load_config, create_dev_xml, not_lt.2 h3, not_lt.2 h6] at hexit

theorem unreadable_configuration_starts_empty_witness :
    load_config unreadable_config.key_file_load [] =
      ([], [Effect.printerr ("Error loading config file: " ++ "No such file or directory"
        ++ "\n")]) ∧
    (main unreadable_config).1 = MainResult.main_loop (initial []) :=
  ⟨(unreadable_configuration_starts_empty unreadable_config "No such file or directory" rfl).1,
   (unreadable_configuration_starts_empty unreadable_config "No such file or directory"
      rfl).2.2.2.1 ⟨rfl, rfl, Or.inl rfl, rfl, rfl⟩⟩

end CanonSsdp
